import Mathlib

/-!
Verification development for the `hololinked` HTTP gateway / broker bridge.

The Python sources are embedded shallowly:

* `src/hololinked/protocols/http/server/handlers.py` — the current HTTP
  handlers (namespace `Http` below);
* `src/hololinked/server/handlers.py` — the legacy HTTP handlers
  (namespace `Legacy` below);
* `src/hololinked/server/serializers.py` — the serializer abstraction
  (namespace `Ser` below).

Python `dict`s are modelled as association lists preserving insertion
order, bytes as `List Nat`, and deserialized JSON documents as the
inductive `JVal`.
-/

/-- JSON-like values produced by a serializer's `loads`. -/
inductive JVal : Type where
  | null : JVal
  | bool (b : Bool) : JVal
  | int (n : Int) : JVal
  | str (s : String) : JVal
  | list (xs : List JVal) : JVal
  | dict (kvs : List (String × JVal)) : JVal
deriving Repr, BEq

/-- Python dict assignment `d[k] = v`: overwrite in place if the key exists,
otherwise append (insertion order preserved). -/
def dset : List (String × JVal) → String → JVal → List (String × JVal)
  | [], k, v => [(k, v)]
  | (k0, v0) :: rest, k, v =>
      if k0 = k then (k, v) :: rest else (k0, v0) :: dset rest k v

/-- Python `d.pop(k, default-None)`: the removed value (if any) and the
remaining dict. -/
def dpop : List (String × JVal) → String → Option JVal × List (String × JVal)
  | [], _ => (none, [])
  | (k0, v0) :: rest, k =>
      if k0 = k then (some v0, rest)
      else
        let r := dpop rest k
        (r.1, (k0, v0) :: r.2)

/-- Python dict lookup `d.get(k)`. -/
def dget : List (String × JVal) → String → Option JVal
  | [], _ => none
  | (k0, v0) :: rest, k => if k0 = k then some v0 else dget rest k

/-- Python `d.update(d2)`: assign every key of `d2` into `d`, in order. -/
def dupdate (d d2 : List (String × JVal)) : List (String × JVal) :=
  d2.foldl (fun acc kv => dset acc kv.1 kv.2) d

/-- Keys of a dict, in order. -/
def dkeys (d : List (String × JVal)) : List String := d.map Prod.fst

/-- Deserialization of one query parameter's raw values, as both handler
generations do it: a single raw value is deserialized alone, several raw
values become the list of their individual deserializations. -/
def queryVal (loads : List Nat → JVal) : List (List Nat) → JVal
  | [v] => loads v
  | vs => JVal.list (vs.map loads)

/-- Shared embedding of the query-parameter loop that appears verbatim in
both `BaseHandler.get_execution_parameters`
(`src/hololinked/protocols/http/server/handlers.py`, lines 93-98) and
`BaseHandler.prepare_arguments` (`src/hololinked/server/handlers.py`,
lines 42-47): each query key is assigned into the running argument dict.
The source guards the loop with `len(query_arguments) >= 1`, which is
transparent here (folding over the empty list is the identity). -/
def merge_query (loads : List Nat → JVal) (d : List (String × JVal))
    (query : List (String × List (List Nat))) : List (String × JVal) :=
  query.foldl (fun acc kv => dset acc kv.1 (queryVal loads kv.2)) d

namespace Http

/-- Embedding of `BaseHandler.has_access_control`
(`src/hololinked/protocols/http/server/handlers.py`, lines 47-62).
Inputs: the server's `allowed_clients` list and the request's optional
`Origin` header. Output: whether access is granted, and the value the
handler sets for the `Access-Control-Allow-Origin` response header
(`none` when the property returns `False` without setting it). -/
def has_access_control (allowed_clients : List String) (origin : Option String) :
    Bool × Option String :=
  if allowed_clients.length = 0 then (true, some "*")
  else
    match origin with
    | some o =>
        if allowed_clients.contains o || allowed_clients.contains (o ++ "/") then
          (true, some o)
        else (false, none)
    | none => (false, none)

/-- Flags of a `PropertyAffordance` resource descriptor. -/
structure PropResource : Type where
  readOnly : Bool
  writeOnly : Bool
deriving Repr, DecidableEq

/-- Decision taken by `PropertyHandler.is_method_allowed` together with the
status it sets when it refuses. -/
inductive MethodGate : Type where
  | allowed : MethodGate
  | forbidden401 : MethodGate
  | notAllowed405 : MethodGate
deriving Repr, DecidableEq

/-- Embedding of `PropertyHandler.is_method_allowed`
(`src/hololinked/protocols/http/server/handlers.py`, lines 218-230).
The guard mirrors the Python expression with Python operator precedence:
`(method == 'GET' and writeOnly) or (method == 'POST' or (method == 'PUT'
and readOnly))` — `and` binds tighter than `or`, so the `readOnly` test
applies only to the `PUT` disjunct. -/
def is_method_allowed (hasAccess : Bool) (res : PropResource) (method : String) :
    MethodGate :=
  if !hasAccess then .forbidden401
  else if (method = "GET" && res.writeOnly)
      || (method = "POST" || (method = "PUT" && res.readOnly)) then .notAllowed405
  else .allowed

/-- Operations dispatched to the broker. -/
inductive Operation : Type where
  | readProperty | writeProperty | deleteProperty | invokeAction
deriving Repr, DecidableEq

/-- Outcome of one HTTP verb handled by `PropertyHandler` (`get`/`post`/
`put`/`delete`, lines 232-262): either an operation dispatched through
`handle_through_thing`, or a refusal status with no dispatch. -/
def propertyVerb (hasAccess : Bool) (res : PropResource) (method : String) :
    Option Operation × Option Nat :=
  match is_method_allowed hasAccess res method with
  | .forbidden401 => (none, some 401)
  | .notAllowed405 => (none, some 405)
  | .allowed =>
      if method = "GET" then (some .readProperty, none)
      else if method = "POST" then (some .writeProperty, none)
      else if method = "PUT" then (some .writeProperty, none)
      else if method = "DELETE" then (some .deleteProperty, none)
      else (none, none)

/-- Placeholder for the raw Tornado request object that
`get_execution_parameters` injects under the key `request` when the
resource descriptor sets `request_as_argument`. -/
def requestMarker : JVal := .str "<raw-request-object>"

/-- Python comparison chain `timeout is not None and timeout < 0` applied
to the popped timeout value, then the coercion to `None`. The outer
`Option` is `none` when the comparison raises `TypeError` (a non-numeric
timeout); the pop's default `None` and a deserialized JSON `null` are the
same Python `None`, hence both yield "no timeout". Python booleans are
ints (0 or 1), never negative. -/
def coerce_timeout : Option JVal → Option (Option JVal)
  | none => some none
  | some .null => some none
  | some (.int n) => some (if n < 0 then none else some (.int n))
  | some (.bool b) => some (some (.bool b))
  | some _ => none

/-- Result of `BaseHandler.get_execution_parameters`: the `ok` branch is
the `isinstance(arguments, dict)` path (forwarded arguments, execution
context, timeout); `passthrough` is the non-dict fallback returning the
deserialized body untouched with an empty context and the hardcoded
5-second timeout. -/
inductive ExecResult : Type where
  | ok (arguments : List (String × JVal)) (context : List (String × JVal))
      (timeout : Option JVal) : ExecResult
  | passthrough (arguments : JVal) (context : List (String × JVal))
      (timeout : Option JVal) : ExecResult
deriving Repr, BEq

/-- Embedding of `BaseHandler.get_execution_parameters`
(`src/hololinked/protocols/http/server/handlers.py`, lines 82-106).
`loads` abstracts `self.serializer.loads` (the wire format is outside the
spec's scope); `body` is the raw request body, `query` the ordered
`request.query_arguments` mapping of raw values. The result is `none`
when the embedded code raises (non-numeric timeout comparison). -/
def get_execution_parameters (loads : List Nat → JVal) (request_as_argument : Bool)
    (body : List Nat) (query : List (String × List (List Nat))) : Option ExecResult :=
  let arguments := if 0 < body.length then loads body else .dict []
  match arguments with
  | .dict d =>
      let d2 := merge_query loads d query
      let p1 := dpop d2 "fetch_execution_logs"
      let context := [("fetch_execution_logs", p1.1.getD (.bool false))]
      let p2 := dpop p1.2 "timeout"
      match coerce_timeout p2.1 with
      | none => none
      | some timeout =>
          let d3 := if request_as_argument then dset p2.2 "request" requestMarker else p2.2
          some (.ok d3 context timeout)
  | a => some (.passthrough a [] (some (.int 5)))

/-- Modelled from the spec: outcome of one `zmq_client_pool.async_execute`
attempt. The client pool lives outside `src/`; the spec's broker contract
(§4.2, §6) classifies an exchange as a successful reply, a
`ConnectionAbortedError`, a `ConnectionError`, or any other exception.
`success` carries the reply bytes handed back to the handler. -/
inductive Outcome : Type where
  | success (reply : List Nat) : Outcome
  | connAborted : Outcome
  | connError : Outcome
  | otherError (err : List Nat) : Outcome
deriving Repr, DecidableEq

/-- Final HTTP response produced by `RPCHandler.handle_through_thing`:
the status set and the bytes written as the body. -/
structure ThingResponse : Type where
  status : Nat
  body : List Nat
deriving Repr, DecidableEq

/-- Embedding of `RPCHandler.handle_through_thing`
(`src/hololinked/protocols/http/server/handlers.py`, lines 173-212),
driven by the trace of per-attempt outcomes. A successful attempt sets
`200` and writes the reply only when it is truthy (`if reply:`); a
`ConnectionAbortedError` sets `503` with nothing written (the router
refresh is scheduled asynchronously); a `ConnectionError` awaits the
router update and re-enters `handle_through_thing` recursively, the
recursive call producing the final response; any other exception sets
`500` and writes the serialized exception. The result is `none` when the
outcome trace is exhausted while the handler is still re-dispatching —
a finite prefix of a run that never completes. -/
def handle_through_thing : List Outcome → Option ThingResponse
  | [] => none
  | o :: rest =>
    match o with
    | .success reply => some ⟨200, if reply = [] then [] else reply⟩
    | .connAborted => some ⟨503, []⟩
    | .connError => handle_through_thing rest
    | .otherError err => some ⟨500, err⟩

/-- Number of `async_execute` attempts `handle_through_thing` performs on
a given outcome trace (each trace entry consumed is one attempt). -/
def attempts_used : List Outcome → Nat
  | [] => 0
  | o :: rest =>
    match o with
    | .connError => 1 + attempts_used rest
    | _ => 1

/-- Modelled from the spec: result of one iteration of the event-tunnel
loop. The broker-side `EventConsumer`/`AsyncEventConsumer` live outside
`src/`; per the spec's broker contract an event source's
`receive(timeoutMs)` yields serialized bytes or `None` when the poll
interval elapses with no message. Each constructor also records how the
handler's subsequent interaction with the HTTP stream went: `flushClosed`
tells whether the `flush()` call raised `StreamClosedError` (peer gone). -/
inductive RecvStep : Type where
  | msg (data : List Nat) (flushClosed : Bool) : RecvStep
  | empty (flushClosed : Bool) : RecvStep
  | recvClosed : RecvStep
  | recvError (err : List Nat) : RecvStep
deriving Repr, DecidableEq

/-- Output of the event tunnel as observed by the HTTP client: a data
frame flushed to the peer, a zero-byte heartbeat flush, or an
exception-shaped frame written after a mid-stream error. -/
inductive Emit : Type where
  | frame (data : List Nat) : Emit
  | heartbeat : Emit
  | errorFrame (err : List Nat) : Emit
deriving Repr, DecidableEq

/-- Embedding of `EventHandler.handle_datastream`'s streaming loop
(`src/hololinked/protocols/http/server/handlers.py`, lines 421-440).
Truthy data is written as a frame and flushed; falsy data triggers the
heartbeat flush; a `StreamClosedError` (from `receive` or from either
flush) breaks the loop, and a failed flush delivers nothing to the peer;
any other receive error writes one exception frame and the loop
continues. An exhausted trace simply ends the observation. -/
def handle_datastream : List RecvStep → List Emit
  | [] => []
  | .msg d false :: rest => .frame d :: handle_datastream rest
  | .msg _ true :: _ => []
  | .empty false :: rest => .heartbeat :: handle_datastream rest
  | .empty true :: _ => []
  | .recvClosed :: _ => []
  | .recvError e :: rest => .errorFrame e :: handle_datastream rest

end Http

namespace Legacy

/-- Embedding of `BaseHandler.prepare_arguments`
(`src/hololinked/server/handlers.py`, lines 32-50): the legacy handler
starts from an empty dict, assigns the deserialized query parameters,
and then `update`s with the parsed body — so the body is merged last.
The result is `none` when the body parses to a non-dict (`dict.update`
raises). -/
def prepare_arguments (loads : List Nat → JVal) (body : List Nat)
    (query : List (String × List (List Nat))) : Option (List (String × JVal)) :=
  let arguments := merge_query loads [] query
  if 0 < body.length then
    match loads body with
    | .dict bd => some (dupdate arguments bd)
    | _ => none
  else some arguments

/-- Statements of the legacy `RPCHandler.has_access_control` property body
(`src/hololinked/server/handlers.py`, lines 82-87): a bare `return True`
followed by code that reads the `Origin` header and conditionally sets a
response header. -/
inductive HacStmt : Type where
  | retTrue : HacStmt
  | examineOrigin : HacStmt
deriving Repr, DecidableEq

/-- Straight-line execution of a `has_access_control` body: statements run
in order until a `return`; the result records the returned value (`none`
when control falls off the end, Python's implicit `None`) and whether the
`Origin` header was ever examined. -/
def run_has_access_control (origin : Option String) (CORS : List String) :
    List HacStmt → Option Bool × Bool
  | [] => (none, false)
  | .retTrue :: _ => (some true, false)
  | .examineOrigin :: rest =>
      let r := run_has_access_control origin CORS rest
      (r.1, true)

/-- Statement list of the legacy `has_access_control` body as written in
the source: `return True` first, the origin check after it. -/
def has_access_control_body : List HacStmt := [.retTrue, .examineOrigin]

/-- Value of the legacy `RPCHandler.has_access_control` property. -/
def has_access_control (origin : Option String) (CORS : List String) : Option Bool :=
  (run_has_access_control origin CORS has_access_control_body).1

/-- Python truthiness of the value returned by the property (used by
`elif self.has_access_control:`): `None` is falsy. -/
def truthy : Option Bool → Bool
  | none => false
  | some b => b

/-- Outcome of the legacy `RPCHandler.handle_through_remote_object`:
`notFound404` when the verb has no instruction; `dispatched` carries the
business arguments, the `fetch_execution_logs` context value and the
`server_timeout` argument passed to `async_execute`; `errorReply` is the
in-`try` exception path (serialized exception written, nothing
dispatched); `forbidden403` is the `else` branch setting
`403 "not autheticated"`. -/
inductive LegacyResult : Type where
  | notFound404 : LegacyResult
  | dispatched (arguments : List (String × JVal)) (fetch_execution_logs : JVal)
      (server_timeout : Option JVal) : LegacyResult
  | errorReply : LegacyResult
  | forbidden403 : LegacyResult
deriving Repr, BEq

/-- Embedding of `RPCHandler.handle_through_remote_object`
(`src/hololinked/server/handlers.py`, lines 97-119): route check, the
access-control property, argument preparation, extraction of the two
reserved keys (the popped timeout is forwarded as `server_timeout`
unchanged — the legacy handler has no negativity check), optional raw
request injection, then dispatch. -/
def handle_through_remote_object (loads : List Nat → JVal) (http_method : String)
    (instructions : List String) (origin : Option String) (CORS : List String)
    (request_as_argument : Bool) (body : List Nat)
    (query : List (String × List (List Nat))) : LegacyResult :=
  if ¬ instructions.contains http_method then .notFound404
  else if truthy (has_access_control origin CORS) then
    match prepare_arguments loads body query with
    | none => .errorReply
    | some args =>
        let p1 := dpop args "fetch_execution_logs"
        let fetch := p1.1.getD (.bool false)
        let p2 := dpop p1.2 "timeout"
        let args2 :=
          if request_as_argument then dset p2.2 "request" Http.requestMarker else p2.2
        .dispatched args2 fetch p2.1
  else .forbidden403

/-- Reply-writing tail of the legacy success path
(`src/hololinked/server/handlers.py`, lines 111-117):
`set_custom_default_headers` sets status `200`, then `if reply:` writes
the reply only when truthy. The pair is (status, body written). -/
def write_reply (reply : List Nat) : Nat × List Nat :=
  (200, if reply = [] then [] else reply)

/-- Embedding of the legacy `EventHandler.handle_datastream` loop
(`src/hololinked/server/handlers.py`, lines 150-163): truthy data is
written and flushed; falsy data does nothing at all (no heartbeat
flush); `StreamClosedError` breaks the loop; other errors write one
exception frame and the loop continues. -/
def handle_datastream : List Http.RecvStep → List Http.Emit
  | [] => []
  | .msg d false :: rest => .frame d :: handle_datastream rest
  | .msg _ true :: _ => []
  | .empty _ :: rest => handle_datastream rest
  | .recvClosed :: _ => []
  | .recvError e :: rest => .errorFrame e :: handle_datastream rest

end Legacy

namespace Ser

/-- Python values handed to `JSONSerializer.dumps`
(`src/hololinked/server/serializers.py`): the JSON-native types plus the
fallback types handled by `JSONSerializer.default`. `venum` records an
`Enum` member's `.name` and (integer) value; `vuuid`, `vdatetime`,
`vdate` and `vdecimal` record the canonical string the corresponding
branch produces (`str(obj)` resp. `obj.isoformat()`). -/
inductive PyVal : Type where
  | vnull : PyVal
  | vbool (b : Bool) : PyVal
  | vint (n : Int) : PyVal
  | vstr (s : String) : PyVal
  | vlist (xs : List PyVal) : PyVal
  | vdict (kvs : List (String × PyVal)) : PyVal
  | venum (name : String) (value : Int) : PyVal
  | vset (xs : List PyVal) : PyVal
  | vtuple (xs : List PyVal) : PyVal
  | vuuid (s : String) : PyVal
  | vdatetime (iso : String) : PyVal
  | vdate (iso : String) : PyVal
  | vdecimal (s : String) : PyVal
deriving Repr

/-- Embedding of the fallback chain of `JSONSerializer.default`
(`src/hololinked/server/serializers.py`, lines 94-125), the `enc_hook`
called for types the JSON encoder does not handle natively, in source
order: `Enum → obj.name`; `set`/`dict_keys`/`deque`/`tuple` →
`list(obj)`; `UUID → str(obj)`; `datetime`/`date → obj.isoformat()`;
`Decimal → str(obj)`. `none` is the final `raise TypeError`. The
branches for objects with a `json` attribute, the param-constrained
containers, `Exception` and `array.array` concern types outside this
model, and no registered type replacement applies to the types above
(they are caught by an earlier `isinstance` branch). -/
def JSONSerializer.default : PyVal → Option PyVal
  | .venum name _ => some (.vstr name)
  | .vset xs => some (.vlist xs)
  | .vtuple xs => some (.vlist xs)
  | .vuuid s => some (.vstr s)
  | .vdatetime iso => some (.vstr iso)
  | .vdate iso => some (.vstr iso)
  | .vdecimal s => some (.vstr s)
  | _ => none

mutual

/-- JSON encoding of a Python value, as `json.encode(data,
enc_hook=JSONSerializer.default)` behaves: native JSON types are encoded
directly (containers recursively), every other type goes through the
fallback `JSONSerializer.default` and its replacement is encoded in turn
(here unfolded per fallback type so the recursion is structural; the
lemma `encode_via_enc_hook` below checks the unfolding against
`JSONSerializer.default`). `none` models the encoder raising. -/
def encode : PyVal → Option JVal
  | .vnull => some .null
  | .vbool b => some (.bool b)
  | .vint n => some (.int n)
  | .vstr s => some (.str s)
  | .vlist xs => (encodeList xs).map JVal.list
  | .vdict kvs => (encodeKVs kvs).map JVal.dict
  | .venum name _ => some (.str name)
  | .vset xs => (encodeList xs).map JVal.list
  | .vtuple xs => (encodeList xs).map JVal.list
  | .vuuid s => some (.str s)
  | .vdatetime iso => some (.str iso)
  | .vdate iso => some (.str iso)
  | .vdecimal s => some (.str s)

/-- Elementwise encoding of a Python list. -/
def encodeList : List PyVal → Option (List JVal)
  | [] => some []
  | x :: xs =>
    match encode x, encodeList xs with
    | some j, some js => some (j :: js)
    | _, _ => none

/-- Elementwise encoding of a Python dict's values. -/
def encodeKVs : List (String × PyVal) → Option (List (String × JVal))
  | [] => some []
  | (k, x) :: xs =>
    match encode x, encodeKVs xs with
    | some j, some js => some ((k, j) :: js)
    | _, _ => none

end

/-- Embedding of `JSONSerializer.dumps` (lines 86-92): serialize via the
JSON encoder with `JSONSerializer.default` as the fallback hook. The
wire document is modelled as the JSON value itself (the byte format is
the serializer contract's business, outside the spec's scope). -/
def JSONSerializer.dumps (data : PyVal) : Option JVal := encode data

/-- Embedding of `JSONSerializer.loads`: decode the JSON wire document. -/
def JSONSerializer.loads (data : JVal) : JVal := data

/-- Python runtime objects passed as `object_type` to
`register_type_replacement`: the metaclass `type` itself, an ordinary
class, or a non-class object. -/
inductive PyType : Type where
  | typeItself : PyType
  | someCls (name : String) : PyType
  | someObj (name : String) : PyType
deriving Repr, DecidableEq

/-- Model of `inspect.isclass`: `type` is a class, ordinary classes are
classes, other objects are not. -/
def isCls : PyType → Bool
  | .typeItself => true
  | .someCls _ => true
  | .someObj _ => false

/-- Generic dict assignment for registries keyed by types (same
overwrite-in-place-or-append semantics as Python dict assignment). -/
def aset {α : Type} : List (PyType × α) → PyType → α → List (PyType × α)
  | [], k, v => [(k, v)]
  | (k0, v0) :: rest, k, v =>
      if k0 = k then (k, v) :: rest else (k0, v0) :: aset rest k v

/-- Generic registry lookup. -/
def aget {α : Type} : List (PyType × α) → PyType → Option α
  | [], _ => none
  | (k0, v0) :: rest, k => if k0 = k then some v0 else aget rest k

/-- Result of a `register_type_replacement` call: the registry afterwards
and whether the call raised `ValueError`. -/
structure RegisterResult (α : Type) : Type where
  registry : List (PyType × α)
  raised : Bool

/-- Embedding of `JSONSerializer.register_type_replacement`
(`src/hololinked/server/serializers.py`, lines 127-132): refuse the type
`type` itself and every non-class with `ValueError` (before touching the
registry), otherwise assign the replacement function for that type into
`cls._type_replacements`. Replacement functions are kept abstract (`α`). -/
def JSONSerializer.register_type_replacement {α : Type}
    (registry : List (PyType × α)) (object_type : PyType)
    (replacement_function : α) : RegisterResult α :=
  if object_type = .typeItself || !(isCls object_type) then ⟨registry, true⟩
  else ⟨aset registry object_type replacement_function, false⟩

/-- Entry the serpent embedding stores: the `custom_serializer` closure
built over the caller's `replacement_function`. -/
inductive SerpentEntry (α : Type) : Type where
  | wrapper (replacement : α) : SerpentEntry α

/-- Embedding of `SerpentSerializer.register_type_replacement`
(`src/hololinked/server/serializers.py`, lines 191-203): the same
`ValueError` guard (the `custom_serializer` closure definition before it
has no effect on the registry), then `serpent.register_class` installs
the wrapper for the type. -/
def SerpentSerializer.register_type_replacement {α : Type}
    (registry : List (PyType × SerpentEntry α)) (object_type : PyType)
    (replacement_function : α) : RegisterResult (SerpentEntry α) :=
  if object_type = .typeItself || !(isCls object_type) then ⟨registry, true⟩
  else ⟨aset registry object_type (.wrapper replacement_function), false⟩

end Ser

/-- Concrete serializer instance used for closed evaluations: a lookup table
over a handful of raw byte strings (the actual wire format is the serializer
contract's business, outside the spec's scope; the handlers only ever call
`loads`). -/
def fixtureLoads : List Nat → JVal
  | [50] => .int 2
  | [51] => .int 3
  | [52] => .int 4
  | [10] => .dict [("a", .int 1)]
  | [11] => .dict [("b", .int 1)]
  | [12] => .dict [("timeout", .int (-1))]
  | _ => .null

theorem dget_dset (d : List (String × JVal)) (k k0 : String) (v : JVal) :
    dget (dset d k v) k0 = if k0 = k then some v else dget d k0 := by
  induction d with
  | nil =>
    by_cases h : k0 = k
    · simp [dset, dget, h]
    · simp [dset, dget, h, Ne.symm h]
  | cons hd tl ih =>
    obtain ⟨k1, v1⟩ := hd
    by_cases h1 : k1 = k
    · subst h1
      by_cases h : k0 = k1
      · simp [dset, dget, h]
      · simp [dset, dget, h, Ne.symm h]
    · by_cases h : k0 = k1
      · subst h
        simp [dset, dget, h1, Ne.symm h1]
      · simp [dset, dget, h1, h, Ne.symm h, ih]

theorem dget_eq_none_of_not_mem (d : List (String × JVal)) (k : String)
    (h : k ∉ dkeys d) : dget d k = none := by
  induction d with
  | nil => rfl
  | cons hd tl ih =>
    obtain ⟨k1, v1⟩ := hd
    simp only [dkeys, List.map_cons, List.mem_cons] at h
    push_neg at h
    simp [dget, Ne.symm h.1, ih h.2]

theorem dkeys_dset_subset (d : List (String × JVal)) (k k0 : String) (v : JVal)
    (h : k0 ∈ dkeys (dset d k v)) : k0 ∈ dkeys d ∨ k0 = k := by
  induction d with
  | nil =>
    right
    simpa [dset, dkeys] using h
  | cons hd tl ih =>
    obtain ⟨k1, v1⟩ := hd
    by_cases h1 : k1 = k
    · subst h1
      rw [show dset ((k1, v1) :: tl) k1 v = (k1, v) :: tl by simp [dset]] at h
      simp only [dkeys, List.map_cons, List.mem_cons] at h
      rcases h with h | h
      · right; exact h
      · left
        simp only [dkeys, List.map_cons, List.mem_cons]
        right; exact h
    · simp only [dset, if_neg h1, dkeys, List.map_cons, List.mem_cons] at h
      rcases h with h | h
      · left
        simp only [dkeys, List.map_cons, List.mem_cons]
        left; exact h
      · rcases ih h with h2 | h2
        · left
          simp only [dkeys, List.map_cons, List.mem_cons]
          right; exact h2
        · right; exact h2

theorem nodup_dset (d : List (String × JVal)) (k : String) (v : JVal)
    (hnd : (dkeys d).Nodup) : (dkeys (dset d k v)).Nodup := by
  induction d with
  | nil => simp [dset, dkeys]
  | cons hd tl ih =>
    obtain ⟨k1, v1⟩ := hd
    simp only [dkeys, List.map_cons, List.nodup_cons] at hnd
    by_cases h1 : k1 = k
    · subst h1
      rw [show dset ((k1, v1) :: tl) k1 v = (k1, v) :: tl by simp [dset]]
      simp only [dkeys, List.map_cons, List.nodup_cons]
      exact ⟨hnd.1, hnd.2⟩
    · simp only [dset, if_neg h1, dkeys, List.map_cons, List.nodup_cons]
      refine ⟨fun hmem => ?_, ih hnd.2⟩
      rcases dkeys_dset_subset tl k k1 v hmem with h2 | h2
      · exact hnd.1 h2
      · exact h1 h2

theorem dpop_sublist (d : List (String × JVal)) (k : String) :
    (dpop d k).2.Sublist d := by
  induction d with
  | nil => simp [dpop]
  | cons hd tl ih =>
    obtain ⟨k1, v1⟩ := hd
    by_cases h1 : k1 = k
    · simp only [dpop, if_pos h1]
      exact List.sublist_cons_self _ _
    · simp only [dpop, if_neg h1]
      exact List.Sublist.cons₂ _ ih

theorem nodup_dpop (d : List (String × JVal)) (k : String)
    (hnd : (dkeys d).Nodup) : (dkeys (dpop d k).2).Nodup := by
  exact List.Nodup.sublist (List.Sublist.map Prod.fst (dpop_sublist d k)) hnd

theorem dget_dpop (d : List (String × JVal)) (k k0 : String)
    (hnd : (dkeys d).Nodup) :
    dget (dpop d k).2 k0 = if k0 = k then none else dget d k0 := by
  induction d with
  | nil =>
    by_cases h : k0 = k
    · simp [dpop, dget, h]
    · simp [dpop, dget, h]
  | cons hd tl ih =>
    obtain ⟨k1, v1⟩ := hd
    simp only [dkeys, List.map_cons, List.nodup_cons] at hnd
    by_cases h1 : k1 = k
    · subst h1
      by_cases h : k0 = k1
      · subst h
        simp only [dpop, if_pos rfl, if_pos rfl]
        exact dget_eq_none_of_not_mem tl k0 hnd.1
      · simp [dpop, dget, h, Ne.symm h]
    · by_cases h : k0 = k1
      · subst h
        simp [dpop, dget, h1, Ne.symm h1]
      · simp [dpop, dget, h1, h, Ne.symm h, ih hnd.2]

theorem merge_query_eq_dupdate (loads : List Nat → JVal)
    (d : List (String × JVal)) (query : List (String × List (List Nat))) :
    merge_query loads d query =
      dupdate d (query.map fun kv => (kv.1, queryVal loads kv.2)) := by
  induction query generalizing d with
  | nil => rfl
  | cons hd tl ih => simp [merge_query, dupdate, List.foldl] at ih ⊢; exact ih _

theorem nodup_dupdate (d d2 : List (String × JVal))
    (hnd : (dkeys d).Nodup) : (dkeys (dupdate d d2)).Nodup := by
  induction d2 generalizing d with
  | nil => exact hnd
  | cons hd tl ih =>
    simp only [dupdate, List.foldl] at *
    exact ih _ (nodup_dset _ _ _ hnd)

theorem dget_dupdate (d d2 : List (String × JVal)) (key : String)
    (hnd2 : (dkeys d2).Nodup) :
    dget (dupdate d d2) key =
      match dget d2 key with
      | some v => some v
      | none => dget d key := by
  induction d2 generalizing d with
  | nil => simp [dupdate, dget]
  | cons hd tl ih =>
    obtain ⟨k1, v1⟩ := hd
    simp only [dkeys, List.map_cons, List.nodup_cons] at hnd2
    simp only [dupdate, List.foldl] at *
    by_cases h : k1 = key
    · subst h
      rw [ih _ hnd2.2]
      have htl : dget tl k1 = none :=
        dget_eq_none_of_not_mem tl k1 hnd2.1
      simp [dget, htl, dget_dset]
    · rw [ih _ hnd2.2]
      simp [dget, Ne.symm h, dget_dset, h]

theorem dget_map_queryVal (loads : List Nat → JVal)
    (query : List (String × List (List Nat))) (key : String) :
    dget (query.map fun kv => (kv.1, queryVal loads kv.2)) key =
      (query.find? (fun kv => kv.1 = key)).map (fun kv => queryVal loads kv.2) := by
  induction query with
  | nil => rfl
  | cons hd tl ih =>
    by_cases h : hd.1 = key
    · rw [List.find?_cons_of_pos _ (by simp [h])]
      simp [dget, h]
    · rw [List.find?_cons_of_neg _ (by simp [h])]
      simp only [List.map_cons, dget]
      rw [if_neg h]
      exact ih

/-- Extensional description of the merge loop: a key carried by the query
takes the query's (individually deserialized) value; any other key keeps
the value from the starting dict. -/
theorem dget_merge_query (loads : List Nat → JVal) (d : List (String × JVal))
    (query : List (String × List (List Nat))) (key : String)
    (hqnd : (query.map Prod.fst).Nodup) :
    dget (merge_query loads d query) key =
      match query.find? (fun kv => kv.1 = key) with
      | some kv => some (queryVal loads kv.2)
      | none => dget d key := by
  rw [merge_query_eq_dupdate]
  rw [dget_dupdate]
  · rw [dget_map_queryVal]
    cases query.find? (fun kv => kv.1 = key) <;> simp
  · simpa [dkeys, List.map_map, Function.comp] using hqnd

/-- Consistency of the structural `encode` with the hook: on every
fallback (non-native) value, encoding equals applying
`JSONSerializer.default` first and encoding its replacement. -/
theorem Ser.encode_via_enc_hook (v : PyVal) (v2 : PyVal)
    (h : JSONSerializer.default v = some v2) : encode v = encode v2 := by
  cases v <;> simp_all [JSONSerializer.default] <;> subst h <;> simp [encode]

theorem Ser.aget_aset {α : Type} (d : List (PyType × α)) (k k0 : PyType) (v : α) :
    aget (aset d k v) k0 = if k0 = k then some v else aget d k0 := by
  induction d with
  | nil =>
    by_cases h : k0 = k
    · simp [aset, aget, h]
    · simp [aset, aget, h, Ne.symm h]
  | cons hd tl ih =>
    obtain ⟨k1, v1⟩ := hd
    by_cases h1 : k1 = k
    · subst h1
      by_cases h : k0 = k1
      · simp [aset, aget, h]
      · simp [aset, aget, h, Ne.symm h]
    · by_cases h : k0 = k1
      · subst h
        simp [aset, aget, h1, Ne.symm h1]
      · simp [aset, aget, h1, h, Ne.symm h, ih]

theorem dpop_fst (d : List (String × JVal)) (k : String) :
    (dpop d k).1 = dget d k := by
  induction d with
  | nil => rfl
  | cons hd tl ih =>
    obtain ⟨k1, v1⟩ := hd
    by_cases h : k1 = k <;> simp [dpop, dget, h, ih]

theorem ite_reply_eq (reply : List Nat) :
    (if reply = [] then ([] : List Nat) else reply) = reply := by
  by_cases h : reply = [] <;> simp [h]

theorem http_datastream_heartbeats (k : Nat) (l : List Http.RecvStep) :
    Http.handle_datastream (List.replicate k (.empty false) ++ l) =
      List.replicate k .heartbeat ++ Http.handle_datastream l := by
  induction k with
  | zero => simp
  | succ k ih => simp [List.replicate_succ, Http.handle_datastream, ih]

theorem legacy_datastream_gap (k : Nat) (l : List Http.RecvStep) :
    Legacy.handle_datastream (List.replicate k (.empty false) ++ l) =
      Legacy.handle_datastream l := by
  induction k with
  | zero => simp
  | succ k ih => simp [List.replicate_succ, Legacy.handle_datastream, ih]

/-- C1 (amended): in `handle_through_thing` a `ConnectionError` triggers a
router update and an unconditional recursive retry of the same operation:
`n` consecutive `ConnectionError`s followed by a success complete with the
success after `n + 1` attempts (so a second consecutive `ConnectionError`
is retried, not surfaced), and a trace of `ConnectionError`s only never
completes — the retry count is unbounded. -/
theorem C1_retry_unbounded (n : Nat) (reply : List Nat) :
    Http.handle_through_thing
        (List.replicate n .connError ++ [.success reply]) = some ⟨200, reply⟩ ∧
    Http.attempts_used (List.replicate n .connError ++ [.success reply]) = n + 1 ∧
    Http.handle_through_thing (List.replicate n .connError) = none := by
  induction n with
  | zero =>
    refine ⟨?_, rfl, rfl⟩
    simp [Http.handle_through_thing, ite_reply_eq]
  | succ n ih =>
    refine ⟨?_, ?_, ?_⟩
    · simpa [List.replicate_succ, Http.handle_through_thing] using ih.1
    · have h2 := ih.2.1
      simp [List.replicate_succ, Http.attempts_used, h2]
      omega
    · simpa [List.replicate_succ, Http.handle_through_thing] using ih.2.2

/-- C1 counterexample: after a `ConnectionError` on the first attempt and a
second consecutive `ConnectionError`, the handler performs a third attempt
and completes with it — the second error is retried, not surfaced, and the
retry count exceeds one. -/
theorem C1_second_error_retried :
    Http.handle_through_thing [.connError, .connError, .success [1]] =
      some ⟨200, [1]⟩ ∧
    Http.attempts_used [.connError, .connError, .success [1]] = 3 :=
  ⟨rfl, rfl⟩

/-- C2 failing input: an authorized POST to a property with
`readOnly = false` (and `writeOnly = false`) is answered `405` and nothing
is dispatched, because Python operator precedence makes the `readOnly` test
bind only to the `PUT` disjunct, leaving `method == 'POST'` an
unconditional rejection — the handler's own `post` method, which would
dispatch `writeProperty`, is unreachable. -/
theorem C2_post_always_rejected :
    Http.propertyVerb true ⟨false, false⟩ "POST" = (none, some 405) ∧
    Http.is_method_allowed true ⟨false, false⟩ "POST" = .notAllowed405 ∧
    Http.propertyVerb true ⟨false, false⟩ "PUT" = (some .writeProperty, none) ∧
    Http.propertyVerb true ⟨true, false⟩ "PUT" = (none, some 405) :=
  ⟨rfl, rfl, rfl, rfl⟩

/-- C5: on a successful dispatch the handler sets status `200` and the
response body is exactly the reply bytes, for every reply including the
empty one (skipping the truthiness-guarded write of an empty byte string
leaves the same empty body), in the current handler and in the legacy
handler's reply-writing tail. -/
theorem C5_success_writes_reply_verbatim (reply : List Nat)
    (rest : List Http.Outcome) :
    Http.handle_through_thing (.success reply :: rest) = some ⟨200, reply⟩ ∧
    Legacy.write_reply reply = (200, reply) := by
  constructor
  · simp [Http.handle_through_thing, ite_reply_eq]
  · simp [Legacy.write_reply, ite_reply_eq]

/-- C6 (amended): in the current handler a trace `m1`, then a gap of one or
more empty polls, then `m2` is emitted as the `m1` frame, one heartbeat
flush per empty poll, then the `m2` frame, in order with no drop or
duplication, and a flush that raises `StreamClosedError` (peer gone)
terminates the loop with nothing delivered; the legacy handler preserves
the same order and no-drop guarantee and the same termination on a failed
flush, but performs no heartbeat flush at all during the gap. -/
theorem C6_stream_order_heartbeat (m1 m2 d : List Nat) (n : Nat)
    (rest : List Http.RecvStep) :
    (Http.handle_datastream
        (.msg m1 false :: (List.replicate (n + 1) (.empty false) ++ [.msg m2 false])) =
      .frame m1 :: (List.replicate (n + 1) .heartbeat ++ [.frame m2])) ∧
    (Http.handle_datastream (.empty true :: rest) = []) ∧
    (Http.handle_datastream (.msg d true :: rest) = []) ∧
    (Legacy.handle_datastream
        (.msg m1 false :: (List.replicate (n + 1) (.empty false) ++ [.msg m2 false])) =
      [.frame m1, .frame m2]) ∧
    (Legacy.handle_datastream (.msg d true :: rest) = []) := by
  refine ⟨?_, rfl, rfl, ?_, rfl⟩
  · simp [Http.handle_datastream, http_datastream_heartbeats, List.replicate_succ]
  · simp [Legacy.handle_datastream, legacy_datastream_gap]

/-- C6 counterexample: in the legacy handler the trace `m1`, empty poll,
`m2` produces the two frames with no heartbeat flush anywhere in between —
the claim's "at least one heartbeat flush during the gap" fails. -/
theorem C6_legacy_no_heartbeat :
    Legacy.handle_datastream [.msg [1] false, .empty false, .msg [2] false] =
      [.frame [1], .frame [2]] ∧
    Http.Emit.heartbeat ∉
      Legacy.handle_datastream [.msg [1] false, .empty false, .msg [2] false] :=
  ⟨rfl, by decide⟩

/-- C9: the legacy `has_access_control` returns `True` at its first
statement, so the `Origin` header is never examined (the statements after
the `return` are unreachable), the authorization outcome is independent of
origin and allow-list, the `403` branch of `handle_through_remote_object`
is never taken, and every request whose verb appears in the resource's
instructions (and whose arguments prepare without raising) is dispatched
to the broker regardless of origin. -/
theorem C9_legacy_access_trivially_true (loads : List Nat → JVal)
    (verb : String) (instructions : List String) (origin origin2 : Option String)
    (CORS CORS2 : List String) (raa : Bool) (body : List Nat)
    (query : List (String × List (List Nat))) :
    (Legacy.has_access_control origin CORS = some true) ∧
    ((Legacy.run_has_access_control origin CORS Legacy.has_access_control_body).2
        = false) ∧
    (∀ rest : List Legacy.HacStmt,
        Legacy.run_has_access_control origin CORS (.retTrue :: rest) =
          (some true, false)) ∧
    (Legacy.handle_through_remote_object loads verb instructions origin CORS
        raa body query =
      Legacy.handle_through_remote_object loads verb instructions origin2 CORS2
        raa body query) ∧
    (Legacy.handle_through_remote_object loads verb instructions origin CORS
        raa body query ≠ .forbidden403) ∧
    (instructions.contains verb = true →
      ∀ pargs, Legacy.prepare_arguments loads body query = some pargs →
        ∃ largs fetch sto,
          Legacy.handle_through_remote_object loads verb instructions origin CORS
              raa body query = .dispatched largs fetch sto) := by
  refine ⟨rfl, rfl, fun rest => rfl, rfl, ?_, ?_⟩
  · intro h
    unfold Legacy.handle_through_remote_object at h
    by_cases hc : instructions.contains verb
    · rw [if_neg (not_not_intro hc)] at h
      rw [if_pos
          (show Legacy.truthy (Legacy.has_access_control origin CORS) = true
            from rfl)] at h
      cases hp : Legacy.prepare_arguments loads body query with
      | none => rw [hp] at h; exact Legacy.LegacyResult.noConfusion h
      | some args => rw [hp] at h; exact Legacy.LegacyResult.noConfusion h
    · rw [if_pos hc] at h
      exact Legacy.LegacyResult.noConfusion h
  · intro hc pargs hp
    have hres : Legacy.handle_through_remote_object loads verb instructions origin
        CORS raa body query =
        (let p1 := dpop pargs "fetch_execution_logs"
         let fetch := p1.1.getD (.bool false)
         let p2 := dpop p1.2 "timeout"
         let args2 := if raa then dset p2.2 "request" Http.requestMarker else p2.2
         .dispatched args2 fetch p2.1) := by
      unfold Legacy.handle_through_remote_object
      rw [if_neg (not_not_intro hc)]
      rw [if_pos
          (show Legacy.truthy (Legacy.has_access_control origin CORS) = true
            from rfl)]
      rw [hp]
    exact ⟨_, _, _, hres⟩

/-- C4 counterexample: with allow-list `["https://a.example"]` the Origin
`https://a.example/` is not authorized — the code appends the slash to the
Origin before the lookup, so the allow-list entry, not the Origin, may
carry the trailing slash; the claim's example fails on the code. -/
theorem C4_trailing_slash_origin_rejected :
    Http.has_access_control ["https://a.example"] (some "https://a.example/") =
      (false, none) := rfl

/-- C4 (amended): an empty allow-list authorizes every request and echoes
the wildcard origin; a non-empty allow-list authorizes a request exactly
when its Origin appears in the allow-list verbatim or the Origin with a
trailing slash appended appears in the allow-list (the entry, not the
Origin, may carry the slash: `["https://a.example/"]` admits Origin
`https://a.example`, while `["https://a.example"]` rejects Origin
`https://b.example`); an authorized request has its Origin echoed, and an
unauthorized request is answered `401` with nothing dispatched. -/
theorem C4_origin_allow_list (allowed : List String) (o : String)
    (origin : Option String) (res : Http.PropResource) (method : String)
    (hne : allowed ≠ []) :
    (Http.has_access_control [] origin = (true, some "*")) ∧
    ((Http.has_access_control allowed (some o)).1 = true ↔
        o ∈ allowed ∨ o ++ "/" ∈ allowed) ∧
    ((Http.has_access_control allowed (some o)).1 = true →
        (Http.has_access_control allowed (some o)).2 = some o) ∧
    (Http.has_access_control allowed none = (false, none)) ∧
    (Http.propertyVerb false res method = (none, some 401)) ∧
    (Http.has_access_control ["https://a.example/"] (some "https://a.example") =
        (true, some "https://a.example")) ∧
    (Http.has_access_control ["https://a.example"] (some "https://b.example") =
        (false, none)) := by
  have hlen : ¬ allowed.length = 0 := fun h => hne (List.length_eq_zero.mp h)
  have hred : Http.has_access_control allowed (some o) =
      if allowed.contains o || allowed.contains (o ++ "/") then (true, some o)
      else (false, none) := by
    unfold Http.has_access_control
    rw [if_neg hlen]
  have hred2 : Http.has_access_control allowed none = (false, none) := by
    unfold Http.has_access_control
    rw [if_neg hlen]
  refine ⟨rfl, ?_, ?_, hred2, rfl, rfl, rfl⟩
  · rw [hred]
    by_cases hmem : allowed.contains o || allowed.contains (o ++ "/")
    · rw [if_pos hmem]
      simp only [true_iff]
      rcases Bool.or_eq_true_iff.mp hmem with h | h
      · exact Or.inl (List.elem_iff.mp h)
      · exact Or.inr (List.elem_iff.mp h)
    · rw [if_neg hmem]
      simp only [Bool.false_eq_true, false_iff]
      intro h2
      rcases h2 with h2 | h2
      · exact hmem (Bool.or_eq_true_iff.mpr (Or.inl (List.elem_iff.mpr h2)))
      · exact hmem (Bool.or_eq_true_iff.mpr (Or.inr (List.elem_iff.mpr h2)))
  · rw [hred]
    by_cases hmem : allowed.contains o || allowed.contains (o ++ "/")
    · rw [if_pos hmem]
      intro _
      rfl
    · rw [if_neg hmem]
      intro h2
      exact absurd h2 (by simp)

theorem gep_dict_eq (loads : List Nat → JVal) (raa : Bool) (body : List Nat)
    (query : List (String × List (List Nat))) (d : List (String × JVal))
    (hlen : 0 < body.length) (hbody : loads body = .dict d) :
    Http.get_execution_parameters loads raa body query =
      match Http.coerce_timeout
          (dpop (dpop (merge_query loads d query) "fetch_execution_logs").2
            "timeout").1 with
      | none => none
      | some timeout =>
          some (.ok
            (if raa then
              dset (dpop (dpop (merge_query loads d query)
                "fetch_execution_logs").2 "timeout").2 "request" Http.requestMarker
             else (dpop (dpop (merge_query loads d query)
                "fetch_execution_logs").2 "timeout").2)
            [("fetch_execution_logs",
              ((dpop (merge_query loads d query) "fetch_execution_logs").1).getD
                (.bool false))]
            timeout) := by
  unfold Http.get_execution_parameters
  rw [show (if 0 < body.length then loads body else JVal.dict []) = JVal.dict d by
      rw [if_pos hlen, hbody]]

/-- C3 (amended): in the current handler the forwarded argument map is the
body map with the individually deserialized query parameters merged on top
— a query key overwrites the body's value, a multi-valued query parameter
becomes the list of its individually deserialized values — and the
reserved keys `timeout` and `fetch_execution_logs` are removed whichever
source supplied them; body `{"a":1}` plus query `?b=2&c=3&c=4` forwards
`{"a":1,"b":2,"c":[3,4]}`. In the legacy handler the merge direction is
reversed: the body is merged last, so a key present in both takes the
body's value. -/
theorem C3_argument_merge (loads : List Nat → JVal) (body : List Nat)
    (query : List (String × List (List Nat))) (d : List (String × JVal))
    (key : String)
    (hlen : 0 < body.length) (hbody : loads body = .dict d)
    (hnd : (dkeys d).Nodup) (hqnd : (query.map Prod.fst).Nodup)
    (hk1 : key ≠ "fetch_execution_logs") (hk2 : key ≠ "timeout")
    (hto : ∀ t, dget (merge_query loads d query) "timeout" = some t →
        t = .null ∨ (∃ n, t = .int n) ∨ (∃ b, t = .bool b)) :
    (∃ args ctx tmo,
      Http.get_execution_parameters loads false body query =
        some (.ok args ctx tmo) ∧
      dget args key =
        (match query.find? (fun kv => kv.1 = key) with
         | some kv => some (queryVal loads kv.2)
         | none => dget d key) ∧
      dget args "fetch_execution_logs" = none ∧
      dget args "timeout" = none) ∧
    (∃ largs,
      Legacy.prepare_arguments loads body query = some largs ∧
      dget largs key =
        (match dget d key with
         | some v => some v
         | none =>
           match query.find? (fun kv => kv.1 = key) with
           | some kv => some (queryVal loads kv.2)
           | none => none)) ∧
    (Http.get_execution_parameters fixtureLoads false [10]
        [("b", [[50]]), ("c", [[51], [52]])] =
      some (.ok [("a", .int 1), ("b", .int 2), ("c", .list [.int 3, .int 4])]
        [("fetch_execution_logs", .bool false)] none)) := by
  have hnd2 : (dkeys (merge_query loads d query)).Nodup := by
    rw [merge_query_eq_dupdate]
    exact nodup_dupdate _ _ hnd
  have hnd3 :
      (dkeys (dpop (merge_query loads d query) "fetch_execution_logs").2).Nodup :=
    nodup_dpop _ _ hnd2
  have hval :
      (dpop (dpop (merge_query loads d query) "fetch_execution_logs").2
        "timeout").1 = dget (merge_query loads d query) "timeout" := by
    rw [dpop_fst, dget_dpop _ _ _ hnd2, if_neg (by decide)]
  have hct : ∃ tmo,
      Http.coerce_timeout
        (dpop (dpop (merge_query loads d query) "fetch_execution_logs").2
          "timeout").1 = some tmo := by
    rw [hval]
    cases hv : dget (merge_query loads d query) "timeout" with
    | none => exact ⟨none, rfl⟩
    | some t =>
      rcases hto t hv with h | ⟨n, h⟩ | ⟨b, h⟩ <;> subst h
      · exact ⟨none, rfl⟩
      · exact ⟨_, rfl⟩
      · exact ⟨_, rfl⟩
  obtain ⟨tmo, hcto⟩ := hct
  have hgep : Http.get_execution_parameters loads false body query =
      some (.ok
        (dpop (dpop (merge_query loads d query) "fetch_execution_logs").2
          "timeout").2
        [("fetch_execution_logs",
          ((dpop (merge_query loads d query) "fetch_execution_logs").1).getD
            (.bool false))]
        tmo) := by
    rw [gep_dict_eq loads false body query d hlen hbody, hcto]
    rfl
  refine ⟨⟨_, _, tmo, hgep, ?_, ?_, ?_⟩, ?_, rfl⟩
  · rw [dget_dpop _ _ _ hnd3, if_neg hk2, dget_dpop _ _ _ hnd2, if_neg hk1,
      dget_merge_query _ _ _ _ hqnd]
  · rw [dget_dpop _ _ _ hnd3, if_neg (by decide), dget_dpop _ _ _ hnd2,
      if_pos rfl]
  · rw [dget_dpop _ _ _ hnd3, if_pos rfl]
  · have hprep : Legacy.prepare_arguments loads body query =
        some (dupdate (merge_query loads [] query) d) := by
      unfold Legacy.prepare_arguments
      rw [if_pos hlen, hbody]
    refine ⟨_, hprep, ?_⟩
    rw [dget_dupdate _ _ _ hnd]
    cases hdk : dget d key with
    | some v => rfl
    | none =>
      simp only
      rw [dget_merge_query _ _ _ _ hqnd]
      cases query.find? (fun kv => kv.1 = key) with
      | none => rfl
      | some kv => rfl

/-- C3 witness: the spec's own example evaluated at a concrete serializer —
body `{"a":1}` plus query `?b=2&c=3&c=4` forwards `{"a":1,"b":2,"c":[3,4]}`
with an empty context and no timeout. -/
theorem C3_argument_merge_witness :
    Http.get_execution_parameters fixtureLoads false [10]
        [("b", [[50]]), ("c", [[51], [52]])] =
      some (.ok [("a", .int 1), ("b", .int 2), ("c", .list [.int 3, .int 4])]
        [("fetch_execution_logs", .bool false)] none) :=
  (C3_argument_merge fixtureLoads [10] [("b", [[50]]), ("c", [[51], [52]])]
      [("a", .int 1)] "b" (by decide) rfl (by decide) (by decide) (by decide)
      (by decide) (fun t ht => Option.noConfusion ht)).2.2

/-- C3 counterexample: in the legacy handler, body `{"b":1}` with query
`?b=2` forwards `b = 1` — the body's value overwrites the query's
deserialized `2`, contradicting the claim that the query overwrites the
body. -/
theorem C3_legacy_body_overwrites_query :
    (Legacy.prepare_arguments fixtureLoads [11] [("b", [[50]])]).map
        (fun d => dget d "b") = some (some (.int 1)) ∧
    fixtureLoads [50] = .int 2 ∧
    ((Legacy.prepare_arguments fixtureLoads [11] [("b", [[50]])]).map
        (fun d => dget d "b") ≠ some (some (.int 2))) := by
  refine ⟨rfl, rfl, ?_⟩
  intro h
  have h2 : some (some (JVal.int 1)) = some (some (JVal.int 2)) := h
  have h3 := Option.some.inj (Option.some.inj h2)
  injection h3 with h4
  exact absurd h4 (by decide)

/-- C7 (amended): in the current handler a timeout that deserializes to a
negative number is coerced to "no timeout" before dispatch, and the
`timeout` key is removed from the forwarded business arguments; the legacy
handler also removes the key from the forwarded arguments but passes the
extracted value — negative included — unchanged as the exchange's
`server_timeout`. -/
theorem C7_negative_timeout (loads : List Nat → JVal) (body : List Nat)
    (query : List (String × List (List Nat))) (d : List (String × JVal))
    (n : Int) (verb : String) (instructions : List String)
    (origin : Option String) (CORS : List String)
    (hlen : 0 < body.length) (hbody : loads body = .dict d)
    (hnd : (dkeys d).Nodup)
    (hto : dget (merge_query loads d query) "timeout" = some (.int n))
    (hneg : n < 0) (hverb : instructions.contains verb = true) :
    (∃ args ctx,
      Http.get_execution_parameters loads false body query =
        some (.ok args ctx none) ∧
      dget args "timeout" = none) ∧
    (∀ pargs, Legacy.prepare_arguments loads body query = some pargs →
      ∃ largs fetch,
        Legacy.handle_through_remote_object loads verb instructions origin CORS
            false body query = .dispatched largs fetch (dget pargs "timeout") ∧
        dget largs "timeout" = none) := by
  have hnd2 : (dkeys (merge_query loads d query)).Nodup := by
    rw [merge_query_eq_dupdate]
    exact nodup_dupdate _ _ hnd
  have hnd3 :
      (dkeys (dpop (merge_query loads d query) "fetch_execution_logs").2).Nodup :=
    nodup_dpop _ _ hnd2
  have hval :
      (dpop (dpop (merge_query loads d query) "fetch_execution_logs").2
        "timeout").1 = some (JVal.int n) := by
    rw [dpop_fst, dget_dpop _ _ _ hnd2, if_neg (by decide)]
    exact hto
  constructor
  · have hc : Http.coerce_timeout (some (JVal.int n)) = some none := by
      show some (if n < 0 then none else some (JVal.int n)) = some none
      rw [if_pos hneg]
    have hgep : Http.get_execution_parameters loads false body query =
        some (.ok
          (dpop (dpop (merge_query loads d query) "fetch_execution_logs").2
            "timeout").2
          [("fetch_execution_logs",
            ((dpop (merge_query loads d query) "fetch_execution_logs").1).getD
              (.bool false))]
          none) := by
      rw [gep_dict_eq loads false body query d hlen hbody, hval, hc]
      rfl
    refine ⟨_, _, hgep, ?_⟩
    rw [dget_dpop _ _ _ hnd3, if_pos rfl]
  · intro pargs hp
    have hprep : Legacy.prepare_arguments loads body query =
        some (dupdate (merge_query loads [] query) d) := by
      unfold Legacy.prepare_arguments
      rw [if_pos hlen, hbody]
    have hpargs : pargs = dupdate (merge_query loads [] query) d := by
      rw [hprep] at hp
      exact (Option.some.inj hp).symm
    have hpnd : (dkeys pargs).Nodup := by
      rw [hpargs, merge_query_eq_dupdate]
      exact nodup_dupdate _ _ (nodup_dupdate _ _ (by simp [dkeys]))
    have hpnd2 : (dkeys (dpop pargs "fetch_execution_logs").2).Nodup :=
      nodup_dpop _ _ hpnd
    have hres : Legacy.handle_through_remote_object loads verb instructions
        origin CORS false body query =
        .dispatched (dpop (dpop pargs "fetch_execution_logs").2 "timeout").2
          ((dpop pargs "fetch_execution_logs").1.getD (.bool false))
          (dpop (dpop pargs "fetch_execution_logs").2 "timeout").1 := by
      unfold Legacy.handle_through_remote_object
      rw [if_neg (not_not_intro hverb)]
      rw [if_pos
          (show Legacy.truthy (Legacy.has_access_control origin CORS) = true
            from rfl)]
      rw [hp]
      rfl
    have hsto : (dpop (dpop pargs "fetch_execution_logs").2 "timeout").1 =
        dget pargs "timeout" := by
      rw [dpop_fst, dget_dpop _ _ _ hpnd, if_neg (by decide)]
    rw [hsto] at hres
    refine ⟨_, _, hres, ?_⟩
    rw [dget_dpop _ _ _ hpnd2, if_pos rfl]

/-- C7 witness: body `{"timeout": -1}` — the current handler dispatches with
no timeout and the `timeout` key absent from the forwarded arguments. -/
theorem C7_negative_timeout_witness :
    ∃ args ctx,
      Http.get_execution_parameters fixtureLoads false [12] [] =
        some (.ok args ctx none) ∧
      dget args "timeout" = none :=
  (C7_negative_timeout fixtureLoads [12] [] [("timeout", .int (-1))] (-1) "GET"
      ["GET"] none [] (by decide) rfl (by decide) rfl (by decide) rfl).1

/-- C7 counterexample: the legacy handler dispatches body `{"timeout": -1}`
with `server_timeout = -1` — the present-and-negative timeout is forwarded
unchanged, not treated as absent. -/
theorem C7_legacy_forwards_negative_timeout :
    Legacy.handle_through_remote_object fixtureLoads "GET" ["GET"] none []
        false [12] [] =
      .dispatched [] (.bool false) (some (.int (-1))) ∧
    (some (JVal.int (-1)) ≠ (none : Option JVal)) :=
  ⟨rfl, fun h => Option.noConfusion h⟩

/-- C4 witness: allow-list `["https://a.example"]` authorizes the verbatim
Origin `https://a.example`. -/
theorem C4_origin_allow_list_witness :
    (Http.has_access_control ["https://a.example"] (some "https://a.example")).1
      = true :=
  (C4_origin_allow_list ["https://a.example"] "https://a.example" none
      ⟨false, false⟩ "GET" (by simp)).2.1.mpr (Or.inl (by simp))

/-- C8: for every value of a registered fallback type the JSON round trip
yields the documented canonical representation: an Enum member its name
string, a UUID its `str(...)`, a datetime or date its ISO-format string, a
Decimal its string form, and a set the list of its (encoded) elements. -/
theorem C8_fallback_roundtrip (name : String) (value : Int)
    (u iso iso2 ds : String) (xs : List Ser.PyVal) (js : List JVal)
    (hxs : Ser.encodeList xs = some js) :
    (Ser.JSONSerializer.dumps (.venum name value)).map Ser.JSONSerializer.loads
        = some (.str name) ∧
    (Ser.JSONSerializer.dumps (.vuuid u)).map Ser.JSONSerializer.loads
        = some (.str u) ∧
    (Ser.JSONSerializer.dumps (.vdatetime iso)).map Ser.JSONSerializer.loads
        = some (.str iso) ∧
    (Ser.JSONSerializer.dumps (.vdate iso2)).map Ser.JSONSerializer.loads
        = some (.str iso2) ∧
    (Ser.JSONSerializer.dumps (.vdecimal ds)).map Ser.JSONSerializer.loads
        = some (.str ds) ∧
    (Ser.JSONSerializer.dumps (.vset xs)).map Ser.JSONSerializer.loads
        = some (.list js) := by
  refine ⟨rfl, rfl, rfl, rfl, rfl, ?_⟩
  simp [Ser.JSONSerializer.dumps, Ser.JSONSerializer.loads, Ser.encode, hxs]

/-- C8 witness: a set holding an Enum member and an int round-trips to the
list of their canonical encodings. -/
theorem C8_fallback_roundtrip_witness :
    (Ser.JSONSerializer.dumps (.vset [.venum "RED" 1, .vint 7])).map
        Ser.JSONSerializer.loads = some (.list [.str "RED", .int 7]) :=
  (C8_fallback_roundtrip "RED" 1 "u" "i" "i2" "1.5" [.venum "RED" 1, .vint 7]
      [.str "RED", .int 7] rfl).2.2.2.2.2

/-- C10: `register_type_replacement` raises `ValueError` for the type
`type` itself and for every non-class, in both the JSON and the serpent
serializer, leaving the registry unchanged; for any other class the JSON
serializer installs exactly the given replacement function for exactly
that type with every other type's entry unchanged, and the serpent
serializer installs its wrapper over the given function under the same
guard. -/
theorem C10_register_type_replacement {α : Type} (reg : List (Ser.PyType × α))
    (sreg : List (Ser.PyType × Ser.SerpentEntry α)) (t t2 : Ser.PyType) (f : α)
    (hobj : Ser.isCls t2 = false) (ht : t ≠ .typeItself)
    (hcls : Ser.isCls t = true) :
    (Ser.JSONSerializer.register_type_replacement reg Ser.PyType.typeItself f =
        ⟨reg, true⟩) ∧
    (Ser.JSONSerializer.register_type_replacement reg t2 f = ⟨reg, true⟩) ∧
    (Ser.SerpentSerializer.register_type_replacement sreg Ser.PyType.typeItself f
        = ⟨sreg, true⟩) ∧
    (Ser.SerpentSerializer.register_type_replacement sreg t2 f = ⟨sreg, true⟩) ∧
    ((Ser.JSONSerializer.register_type_replacement reg t f).raised = false) ∧
    (Ser.aget (Ser.JSONSerializer.register_type_replacement reg t f).registry t
        = some f) ∧
    (∀ t3, t3 ≠ t →
        Ser.aget (Ser.JSONSerializer.register_type_replacement reg t f).registry
          t3 = Ser.aget reg t3) ∧
    (Ser.aget (Ser.SerpentSerializer.register_type_replacement sreg t f).registry
        t = some (.wrapper f)) := by
  refine ⟨rfl, ?_, rfl, ?_, ?_, ?_, ?_, ?_⟩
  · unfold Ser.JSONSerializer.register_type_replacement
    rw [if_pos (by simp [hobj])]
  · unfold Ser.SerpentSerializer.register_type_replacement
    rw [if_pos (by simp [hobj])]
  · unfold Ser.JSONSerializer.register_type_replacement
    rw [if_neg (by simp [ht, hcls])]
  · unfold Ser.JSONSerializer.register_type_replacement
    rw [if_neg (by simp [ht, hcls])]
    rw [Ser.aget_aset, if_pos rfl]
  · intro t3 h3
    unfold Ser.JSONSerializer.register_type_replacement
    rw [if_neg (by simp [ht, hcls])]
    rw [Ser.aget_aset, if_neg h3]
  · unfold Ser.SerpentSerializer.register_type_replacement
    rw [if_neg (by simp [ht, hcls])]
    rw [Ser.aget_aset, if_pos rfl]

/-- C10 witness: registering a replacement for an ordinary class on the
empty registry installs exactly that function, and a non-class argument is
refused with the registry unchanged. -/
theorem C10_register_type_replacement_witness :
    Ser.aget (Ser.JSONSerializer.register_type_replacement
        ([] : List (Ser.PyType × Nat)) (.someCls "Foo") 7).registry
      (.someCls "Foo") = some 7 ∧
    Ser.JSONSerializer.register_type_replacement ([] : List (Ser.PyType × Nat))
      (.someObj "x") 7 = ⟨[], true⟩ :=
  ⟨(C10_register_type_replacement ([] : List (Ser.PyType × Nat))
        ([] : List (Ser.PyType × Ser.SerpentEntry Nat)) (.someCls "Foo")
        (.someObj "x") 7 rfl (by decide) rfl).2.2.2.2.2.1,
   (C10_register_type_replacement ([] : List (Ser.PyType × Nat))
        ([] : List (Ser.PyType × Ser.SerpentEntry Nat)) (.someCls "Foo")
        (.someObj "x") 7 rfl (by decide) rfl).2.1⟩
